import Mathlib

/-!
Shallow embedding of the profit-distribution and contribution-accounting core
of the ShowRoom management backend (`show_room/models.py`).

Monetary values are Python `Decimal`s; we model them as exact rationals (`ℚ`).
Python's `round(d, 2)` on a `Decimal` quantizes to two decimal places using
round-half-even, which `round2` below reproduces exactly.  Django collections
(`car.investments.all()`, `car.expenses.all()`) are modelled as lists carried
on the `Car` record.  Python dicts returned by `calculate_profit_distribution`
are modelled as a structure of `Option` fields (a key absent from the dict in
a given branch is `none`), and the per-investor dict as an association list in
investment order.
-/

namespace ShowRoom

/-- Round-half-even of a rational to an integer, Python `Decimal`'s default
`ROUND_HALF_EVEN` rounding mode. -/
def rhe (q : ℚ) : ℤ :=
  if q < ⌊q⌋ + 1/2 then ⌊q⌋
  else if (⌊q⌋ : ℚ) + 1/2 < q then ⌊q⌋ + 1
  else if ⌊q⌋ % 2 = 0 then ⌊q⌋ else ⌊q⌋ + 1

/-- Python `round(x, 2)` on a `Decimal`: quantize to two decimal places,
ties to even. -/
def round2 (q : ℚ) : ℚ := (rhe (100 * q) : ℚ) / 100

/-- `x` is a whole number of cents, i.e. representable as a `Decimal` with
two decimal places (`DecimalField(decimal_places=2)` guarantees this for all
stored amounts). -/
def Cents (x : ℚ) : Prop := (100 * x).den = 1

instance (x : ℚ) : Decidable (Cents x) := by unfold Cents; infer_instance

/-- `car_type` column: `'investment'` or `'consignment'`. -/
inductive CarType
  | investment
  | consignment
deriving DecidableEq

/-- A `CarInvestment` row scoped to one car: the investing user (identified by
email) and the initial stake. -/
structure CarInvestment where
  investor : String
  amount : ℚ
deriving DecidableEq

/-- A `CarExpense` row scoped to one car: the user who paid (an investor, or
the show-room owner for consignment cars) and the amount. -/
structure CarExpense where
  investor : String
  amount : ℚ
  description : String
deriving DecidableEq

/-- A `Car` row together with its associated investment and expense rows. -/
structure Car where
  carType : CarType
  totalAmount : ℚ
  askingPrice : Option ℚ
  soldAmount : Option ℚ
  adminPercentage : ℚ
  status : String
  showRoomOwner : Option String
  investments : List CarInvestment
  expenses : List CarExpense
deriving DecidableEq

/-- Value of `sold_amount` with SQL NULL read as 0 (only used where the code
has already checked truthiness). -/
def soldVal (car : Car) : ℚ :=
  match car.soldAmount with
  | none => 0
  | some s => s

/-- Python truthiness of `self.sold_amount`: `None` and `Decimal('0')` are
both falsy. -/
def isSold (car : Car) : Bool :=
  match car.soldAmount with
  | none => false
  | some s => decide (s ≠ 0)

/-- `Car.total_invested`: sum of all investment amounts, rounded. -/
def total_invested (car : Car) : ℚ :=
  round2 ((car.investments.map (fun i => i.amount)).sum)

/-- `Car.total_expenses`: sum of all expense amounts, rounded. -/
def total_expenses (car : Car) : ℚ :=
  round2 ((car.expenses.map (fun e => e.amount)).sum)

/-- `Car.total_invested_with_expenses`: the cost basis. -/
def total_invested_with_expenses (car : Car) : ℚ :=
  round2 (total_invested car + total_expenses car)

/-- `Car.remaining_amount`. -/
def remaining_amount (car : Car) : ℚ :=
  round2 (car.totalAmount - total_invested car)

/-- `Car.get_show_room_expenses`: total of expenses whose payer is the
show-room owner, for consignment cars; 0 otherwise.  (With a NULL
`show_room_owner` the ORM filter matches no row.) -/
def get_show_room_expenses (car : Car) : ℚ :=
  match car.carType with
  | CarType.consignment =>
      ((car.expenses.filter (fun e => some e.investor = car.showRoomOwner)).map
        (fun e => e.amount)).sum
  | CarType.investment => 0

/-- `Car.profit`. -/
def profit (car : Car) : ℚ :=
  if ¬ isSold car then 0
  else
    match car.carType with
    | CarType.consignment =>
        round2 (soldVal car - car.askingPrice.getD 0 - get_show_room_expenses car)
    | CarType.investment =>
        round2 (soldVal car - total_invested_with_expenses car)

/-- `CarInvestment.total_contribution`: stake plus this investor's expenses on
this car (not rounded in the source). -/
def total_contribution (car : Car) (inv : CarInvestment) : ℚ :=
  inv.amount +
    ((car.expenses.filter (fun e => e.investor = inv.investor)).map
      (fun e => e.amount)).sum

/-- `CarInvestment.investment_share`: contribution as a percentage of the cost
basis, 0 when the denominator is not positive. -/
def investment_share (car : Car) (inv : CarInvestment) : ℚ :=
  if total_invested_with_expenses car > 0 then
    round2 (total_contribution car inv / total_invested_with_expenses car * 100)
  else 0

/-- `CarInvestment.profit_amount`: the investor's profit computed directly on
the investment row (admin share here is not rounded before subtraction). -/
def profit_amount (car : Car) (inv : CarInvestment) : ℚ :=
  if ¬ isSold car ∨ profit car ≤ 0 then 0
  else
    if total_invested_with_expenses car > 0 then
      round2 ((profit car - car.adminPercentage / 100 * profit car) *
        (total_contribution car inv / total_invested_with_expenses car))
    else 0

/-- `CarInvestment.total_return`. -/
def total_return (car : Car) (inv : CarInvestment) : ℚ :=
  round2 (total_contribution car inv + profit_amount car inv)

/-- One entry of the `investor_shares` dict. -/
structure InvestorShare where
  contribution : ℚ
  percentage : ℚ
  profit : ℚ
  total_return : ℚ
deriving DecidableEq

/-- The dict returned by `calculate_profit_distribution`; a key that a branch
does not put in the dict is `none`. -/
structure DistResult where
  admin_share : Option ℚ := none
  investor_shares : Option (List (String × InvestorShare)) := none
  show_room_owner_share : Option ℚ := none
  car_owner_share : Option ℚ := none
  total_profit : Option ℚ := none
  remaining_profit : Option ℚ := none
  total_cost_basis : Option ℚ := none
  sold_amount : Option ℚ := none
  show_room_expenses_recovered : Option ℚ := none
  show_room_total_earnings : Option ℚ := none
  car_owner_earnings : Option ℚ := none
  show_room_percentage_amount : Option ℚ := none
  asking_price : Option ℚ := none
  show_room_expenses : Option ℚ := none
  admin_percentage : Option ℚ := none
  car_type : CarType
  calculation_method : Option String := none
  error : Option String := none
deriving DecidableEq

/-- `str(d)` for a two-decimal-place `Decimal` (the shape `round(_, 2)`
produces): sign, integer part, dot, exactly two fraction digits. -/
def decimal2Str (q : ℚ) : String :=
  let c : ℤ := rhe (100 * q)
  let n : ℕ := c.natAbs
  (if c < 0 then "-" else "") ++ toString (n / 100) ++ "." ++
    (if n % 100 < 10 then "0" else "") ++ toString (n % 100)

/-- Body of the per-investment loop in
`_calculate_investment_profit_distribution`. -/
def mkInvestorShare (car : Car) (remainingProfit totalCostBasis : ℚ)
    (inv : CarInvestment) : String × InvestorShare :=
  let c := total_contribution car inv
  let cp := if totalCostBasis > 0 then c / totalCostBasis else 0
  let p := if totalCostBasis > 0 then round2 (remainingProfit * cp) else 0
  (inv.investor,
    { contribution := round2 c
      percentage := round2 (cp * 100)
      profit := p
      total_return := round2 (c + p) })

/-- `Car._calculate_investment_profit_distribution`. -/
def investmentDistribution (car : Car) (totalProfit : ℚ) : DistResult :=
  let tcb := total_invested_with_expenses car
  if totalProfit ≤ 0 then
    { admin_share := some 0
      investor_shares := some []
      total_profit := some totalProfit
      remaining_profit := some 0
      total_cost_basis := some (round2 tcb)
      car_type := CarType.investment
      error := some ("No profit to distribute. Loss: " ++ decimal2Str |totalProfit|) }
  else
    let adminShare := round2 (car.adminPercentage / 100 * totalProfit)
    let remaining := round2 (totalProfit - adminShare)
    { admin_share := some adminShare
      investor_shares := some (car.investments.map (mkInvestorShare car remaining tcb))
      total_profit := some totalProfit
      remaining_profit := some remaining
      total_cost_basis := some (round2 tcb)
      sold_amount := some (round2 (soldVal car))
      car_type := CarType.investment }

/-- `Car._calculate_consignment_profit_distribution` (the `total_profit`
argument is passed but never used, as in the source; `admin_percentage` is
reported back as a number). -/
def consignmentDistribution (car : Car) (_totalProfit : ℚ) : DistResult :=
  let srpa := round2 (car.adminPercentage / 100 * soldVal car)
  let sre := round2 (get_show_room_expenses car)
  { show_room_owner_share := some srpa
    show_room_expenses_recovered := some sre
    show_room_total_earnings := some (srpa + sre)
    car_owner_earnings := some (round2 (soldVal car - srpa - sre))
    show_room_percentage_amount := some srpa
    asking_price := some (round2 (car.askingPrice.getD 0))
    show_room_expenses := some sre
    sold_amount := some (round2 (soldVal car))
    admin_percentage := some car.adminPercentage
    car_type := CarType.consignment }

/-- `Car.calculate_profit_distribution`. -/
def calculate_profit_distribution (car : Car) : DistResult :=
  if ¬ isSold car then
    { admin_share := some 0
      investor_shares :=
        match car.carType with
        | CarType.investment => some []
        | CarType.consignment => none
      show_room_owner_share :=
        match car.carType with
        | CarType.consignment => some 0
        | CarType.investment => none
      car_owner_share :=
        match car.carType with
        | CarType.consignment => some 0
        | CarType.investment => none
      total_profit := some 0
      remaining_profit := some 0
      car_type := car.carType
      error := some "Car has not been sold yet" }
  else
    let tp := round2 (profit car)
    match car.carType with
    | CarType.consignment => consignmentDistribution car tp
    | CarType.investment => investmentDistribution car tp

/-- This investor's share of the expenses on a car: total of the expense rows
attributed to user `u`.  `total_contribution` is `amount + expSumFor investor
expenses` by definition. -/
def expSumFor (u : String) (exps : List CarExpense) : ℚ :=
  ((exps.filter (fun e => e.investor = u)).map (fun e => e.amount)).sum

/-- Scenario A, the repository's exact-scenario test: three investors of
300000 each, investor A adds a 100000 expense, sold for 1100000, admin 30%. -/
def carA : Car :=
  { carType := CarType.investment
    totalAmount := 900000
    askingPrice := none
    soldAmount := some 1100000
    adminPercentage := 30
    status := "sold"
    showRoomOwner := none
    investments :=
      [ { investor := "investor_a@test.com", amount := 300000 }
      , { investor := "investor_b@test.com", amount := 300000 }
      , { investor := "investor_c@test.com", amount := 300000 } ]
    expenses :=
      [ { investor := "investor_a@test.com", amount := 100000
          description := "Maintenance expense" } ] }

/-- Scenario B: consignment car, asking 500000, sold 600000, admin 10%,
show-room expenses 20000. -/
def carB : Car :=
  { carType := CarType.consignment
    totalAmount := 500000
    askingPrice := some 500000
    soldAmount := some 600000
    adminPercentage := 10
    status := "sold"
    showRoomOwner := some "owner@test.com"
    investments := []
    expenses := [ { investor := "owner@test.com", amount := 20000, description := "repairs" } ] }

/-- An investment car carrying an expense attributed to a user who holds no
investment on the car: profit conservation fails on it. -/
def carOutsider : Car :=
  { carType := CarType.investment
    totalAmount := 100
    askingPrice := none
    soldAmount := some 400
    adminPercentage := 0
    status := "sold"
    showRoomOwner := none
    investments := [ { investor := "a@test.com", amount := 100 } ]
    expenses := [ { investor := "b@test.com", amount := 100, description := "outside expense" } ] }

/-- A sold investment car whose admin share lands on a half cent: sole
investor of 100, sold at 101.01, admin 50%. -/
def carHalfCent : Car :=
  { carType := CarType.investment
    totalAmount := 100
    askingPrice := none
    soldAmount := some (10101 / 100)
    adminPercentage := 50
    status := "sold"
    showRoomOwner := none
    investments := [ { investor := "a@test.com", amount := 100 } ]
    expenses := [] }

/-- The sole investment row of `carHalfCent`. -/
def invHalfCent : CarInvestment := { investor := "a@test.com", amount := 100 }

/-- A sold investment car at a loss: invested 100, sold for 50. -/
def carLoss : Car :=
  { carType := CarType.investment
    totalAmount := 100
    askingPrice := none
    soldAmount := some 50
    adminPercentage := 30
    status := "sold"
    showRoomOwner := none
    investments := [ { investor := "a@test.com", amount := 100 } ]
    expenses := [] }

/-- A never-sold investment car. -/
def carUnsold : Car :=
  { carType := CarType.investment
    totalAmount := 900000
    askingPrice := none
    soldAmount := none
    adminPercentage := 30
    status := "available"
    showRoomOwner := none
    investments := [ { investor := "a@test.com", amount := 900000 } ]
    expenses := [] }

/-- A car marked sold whose `sold_amount` was recorded as 0 (not NULL). -/
def carZeroSold : Car :=
  { carType := CarType.investment
    totalAmount := 900000
    askingPrice := none
    soldAmount := some 0
    adminPercentage := 30
    status := "sold"
    showRoomOwner := none
    investments := [ { investor := "a@test.com", amount := 900000 } ]
    expenses := [] }

/-- A sold investment car with no investments and no expenses: the cost basis
denominator is 0. -/
def carNoBasis : Car :=
  { carType := CarType.investment
    totalAmount := 100
    askingPrice := none
    soldAmount := some 50
    adminPercentage := 30
    status := "sold"
    showRoomOwner := none
    investments := []
    expenses := [] }

/-- An arbitrary investment row used to exercise the zero-denominator
fallbacks. -/
def invProbe : CarInvestment := { investor := "a@test.com", amount := 0 }

/-! ### Properties of the rounding primitive -/

theorem rhe_intCast (n : ℤ) : rhe (n : ℚ) = n := by
  unfold rhe
  rw [Int.floor_intCast]
  norm_num

theorem abs_rhe_sub_le (q : ℚ) : |(rhe q : ℚ) - q| ≤ 1 / 2 := by
  have h0 : ((⌊q⌋ : ℤ) : ℚ) ≤ q := Int.floor_le q
  have h1 : q < (⌊q⌋ : ℚ) + 1 := Int.lt_floor_add_one q
  unfold rhe
  split_ifs with hf hg he
  · rw [abs_le]
    constructor <;> linarith
  · push_cast
    rw [abs_le]
    constructor <;> linarith
  · push_neg at hf
    rw [abs_le]
    constructor <;> linarith
  · push_neg at hf hg
    push_cast
    rw [abs_le]
    constructor <;> linarith

theorem rhe_nonpos {q : ℚ} (h : q ≤ 0) : rhe q ≤ 0 := by
  have h0 : ((⌊q⌋ : ℤ) : ℚ) ≤ q := Int.floor_le q
  have hfl : ⌊q⌋ ≤ 0 := Int.floor_nonpos h
  unfold rhe
  split_ifs with hf hg he
  · exact hfl
  · have hq : (⌊q⌋ : ℚ) < 0 := by linarith
    have : ⌊q⌋ < 0 := by exact_mod_cast hq
    omega
  · exact hfl
  · push_neg at hf
    have hq : (⌊q⌋ : ℚ) < 0 := by linarith
    have : ⌊q⌋ < 0 := by exact_mod_cast hq
    omega

theorem cents_iff (x : ℚ) : Cents x ↔ ∃ k : ℤ, x = (k : ℚ) / 100 := by
  constructor
  · intro h
    refine ⟨(100 * x).num, ?_⟩
    have h2 : ((100 * x).num : ℚ) = 100 * x := (Rat.den_eq_one_iff _).mp h
    rw [h2]
    ring
  · rintro ⟨k, rfl⟩
    unfold Cents
    have h : (100 : ℚ) * ((k : ℚ) / 100) = (k : ℚ) := by ring
    rw [h]
    exact Rat.den_intCast k

theorem round2_eq_self {x : ℚ} (h : Cents x) : round2 x = x := by
  have h2 : ((100 * x).num : ℚ) = 100 * x := (Rat.den_eq_one_iff _).mp h
  unfold round2
  rw [← h2, rhe_intCast, h2]
  ring

theorem round2_cents (q : ℚ) : Cents (round2 q) := by
  rw [cents_iff]
  exact ⟨rhe (100 * q), rfl⟩

theorem abs_round2_sub_le (q : ℚ) : |round2 q - q| ≤ 1 / 200 := by
  have h := abs_rhe_sub_le (100 * q)
  unfold round2
  rw [abs_le] at h ⊢
  constructor <;> [linarith [h.1]; linarith [h.2]]

theorem round2_nonpos {q : ℚ} (h : q ≤ 0) : round2 q ≤ 0 := by
  have h2 : rhe (100 * q) ≤ 0 := rhe_nonpos (by linarith)
  have h3 : ((rhe (100 * q) : ℤ) : ℚ) ≤ 0 := by exact_mod_cast h2
  unfold round2
  linarith

theorem round2_zero : round2 0 = 0 := by
  have : Cents (0 : ℚ) := by
    rw [cents_iff]
    exact ⟨0, by norm_num⟩
  exact round2_eq_self this

theorem cents_add {x y : ℚ} (hx : Cents x) (hy : Cents y) : Cents (x + y) := by
  rw [cents_iff] at hx hy ⊢
  obtain ⟨a, rfl⟩ := hx
  obtain ⟨b, rfl⟩ := hy
  exact ⟨a + b, by push_cast; ring⟩

theorem cents_sub {x y : ℚ} (hx : Cents x) (hy : Cents y) : Cents (x - y) := by
  rw [cents_iff] at hx hy ⊢
  obtain ⟨a, rfl⟩ := hx
  obtain ⟨b, rfl⟩ := hy
  exact ⟨a - b, by push_cast; ring⟩

theorem cents_sum {l : List ℚ} (h : ∀ x ∈ l, Cents x) : Cents l.sum := by
  induction l with
  | nil =>
      rw [List.sum_nil, cents_iff]
      exact ⟨0, by norm_num⟩
  | cons a t ih =>
      rw [List.sum_cons]
      exact cents_add (h a (by simp)) (ih fun x hx => h x (by simp [hx]))

theorem cents_abs_diff_le {x y : ℚ} (hx : Cents x) (hy : Cents y)
    (h : |x - y| ≤ 3 / 200) : |x - y| ≤ 1 / 100 := by
  rw [cents_iff] at hx hy
  obtain ⟨a, rfl⟩ := hx
  obtain ⟨b, rfl⟩ := hy
  have hd : (a : ℚ) / 100 - (b : ℚ) / 100 = ((a - b : ℤ) : ℚ) / 100 := by
    push_cast
    ring
  rw [hd] at h ⊢
  rw [abs_div, abs_of_pos (by norm_num : (0:ℚ) < 100)] at h ⊢
  have h1 : |((a - b : ℤ) : ℚ)| ≤ 3 / 2 := by linarith
  rw [← Int.cast_abs] at h1
  have h2 : |a - b| ≤ 1 := by
    by_contra hc
    push_neg at hc
    have hc2 : 2 ≤ |a - b| := by omega
    have hc3 : (2 : ℚ) ≤ ((|a - b| : ℤ) : ℚ) := by exact_mod_cast hc2
    linarith
  have h5 : ((|a - b| : ℤ) : ℚ) ≤ 1 := by exact_mod_cast h2
  rw [← Int.cast_abs]
  linarith

theorem abs_sum_map_round2_sub_le (l : List ℚ) :
    |(l.map round2).sum - l.sum| ≤ (l.length : ℚ) / 200 := by
  induction l with
  | nil => simp
  | cons a t ih =>
      rw [List.map_cons, List.sum_cons, List.sum_cons, List.length_cons]
      have ha := abs_round2_sub_le a
      have key : round2 a + (t.map round2).sum - (a + t.sum) =
          (round2 a - a) + ((t.map round2).sum - t.sum) := by ring
      rw [key]
      calc |(round2 a - a) + ((t.map round2).sum - t.sum)|
          ≤ |round2 a - a| + |(t.map round2).sum - t.sum| := abs_add _ _
        _ ≤ 1 / 200 + (t.length : ℚ) / 200 := add_le_add ha ih
        _ = ((t.length + 1 : ℕ) : ℚ) / 200 := by push_cast; ring

/-! ### Summing contributions over the investments of a car -/

theorem expSumFor_cons (u : String) (e : CarExpense) (t : List CarExpense) :
    expSumFor u (e :: t) = (if e.investor = u then e.amount else 0) + expSumFor u t := by
  unfold expSumFor
  by_cases h : e.investor = u
  · simp [List.filter_cons, h]
  · simp [List.filter_cons, h]

theorem expSumFor_nonneg (u : String) (exps : List CarExpense)
    (h : ∀ e ∈ exps, 0 ≤ e.amount) : 0 ≤ expSumFor u exps := by
  induction exps with
  | nil => simp [expSumFor]
  | cons e t ih =>
      rw [expSumFor_cons]
      have he := h e (by simp)
      have ht := ih fun x hx => h x (by simp [hx])
      split_ifs
      · linarith
      · linarith

theorem expSumFor_le_sum (u : String) (exps : List CarExpense)
    (h : ∀ e ∈ exps, 0 ≤ e.amount) :
    expSumFor u exps ≤ ((exps.map fun e => e.amount).sum) := by
  induction exps with
  | nil => simp [expSumFor]
  | cons e t ih =>
      rw [expSumFor_cons, List.map_cons, List.sum_cons]
      have he := h e (by simp)
      have ht := ih fun x hx => h x (by simp [hx])
      split_ifs
      · linarith
      · linarith

theorem sum_indicator_of_no_match (invs : List CarInvestment) (u : String) (a : ℚ)
    (h : ∀ inv ∈ invs, ¬ u = inv.investor) :
    ((invs.map fun inv => if u = inv.investor then a else 0).sum) = 0 := by
  induction invs with
  | nil => simp
  | cons i t ih =>
      rw [List.map_cons, List.sum_cons]
      rw [if_neg (h i (by simp))]
      rw [ih fun x hx => h x (by simp [hx])]
      ring

theorem sum_indicator_of_match (invs : List CarInvestment) (u : String) (a : ℚ)
    (hd : invs.Pairwise fun i j => i.investor ≠ j.investor)
    (hm : ∃ inv ∈ invs, inv.investor = u) :
    ((invs.map fun inv => if u = inv.investor then a else 0).sum) = a := by
  induction invs with
  | nil => simp at hm
  | cons i t ih =>
      rw [List.map_cons, List.sum_cons]
      rw [List.pairwise_cons] at hd
      by_cases hi : u = i.investor
      · rw [if_pos hi]
        rw [sum_indicator_of_no_match t u a]
        · ring
        · intro inv hinv hu
          exact hd.1 inv hinv (hi ▸ hu ▸ rfl)
      · rw [if_neg hi]
        obtain ⟨inv, hinv, hu⟩ := hm
        rcases List.mem_cons.mp hinv with h1 | h1
        · exact absurd (h1 ▸ hu).symm hi
        · rw [ih hd.2 ⟨inv, h1, hu⟩]
          ring

theorem sum_expSumFor (invs : List CarInvestment) (exps : List CarExpense)
    (hd : invs.Pairwise fun i j => i.investor ≠ j.investor)
    (hcov : ∀ e ∈ exps, ∃ inv ∈ invs, inv.investor = e.investor) :
    ((invs.map fun inv => expSumFor inv.investor exps).sum) =
      ((exps.map fun e => e.amount).sum) := by
  induction exps with
  | nil => simp [expSumFor]
  | cons e t ih =>
      have hstep : (invs.map fun inv => expSumFor inv.investor (e :: t)) =
          invs.map fun inv =>
            (if e.investor = inv.investor then e.amount else 0) + expSumFor inv.investor t := by
        apply List.map_congr_left
        intro inv _
        exact expSumFor_cons inv.investor e t
      rw [hstep, List.sum_map_add, List.map_cons, List.sum_cons]
      rw [sum_indicator_of_match invs e.investor e.amount hd (hcov e (by simp))]
      rw [ih fun x hx => hcov x (by simp [hx])]

theorem sum_total_contribution (car : Car)
    (hd : car.investments.Pairwise fun i j => i.investor ≠ j.investor)
    (hcov : ∀ e ∈ car.expenses, ∃ inv ∈ car.investments, inv.investor = e.investor) :
    ((car.investments.map fun inv => total_contribution car inv).sum) =
      ((car.investments.map fun i => i.amount).sum) +
        ((car.expenses.map fun e => e.amount).sum) := by
  have hstep : (car.investments.map fun inv => total_contribution car inv) =
      car.investments.map fun inv => inv.amount + expSumFor inv.investor car.expenses := by
    apply List.map_congr_left
    intro inv _
    rfl
  rw [hstep, List.sum_map_add, sum_expSumFor car.investments car.expenses hd hcov]

/-! ### Unfolding the distribution by car state -/

theorem isSold_of_some {car : Car} {s : ℚ} (h : car.soldAmount = some s) (hs : s ≠ 0) :
    isSold car = true := by
  simp [isSold, h, hs]

theorem soldVal_of_some {car : Car} {s : ℚ} (h : car.soldAmount = some s) :
    soldVal car = s := by
  simp [soldVal, h]

theorem dist_eq_investment {car : Car} (hsold : isSold car = true)
    (ht : car.carType = CarType.investment) :
    calculate_profit_distribution car =
      investmentDistribution car (round2 (profit car)) := by
  unfold calculate_profit_distribution
  rw [hsold, ht]
  simp

theorem dist_eq_consignment {car : Car} (hsold : isSold car = true)
    (ht : car.carType = CarType.consignment) :
    calculate_profit_distribution car =
      consignmentDistribution car (round2 (profit car)) := by
  unfold calculate_profit_distribution
  rw [hsold, ht]
  simp

theorem profit_investment {car : Car} {s : ℚ} (hsold : car.soldAmount = some s)
    (hs : s ≠ 0) (ht : car.carType = CarType.investment) :
    profit car = round2 (s - total_invested_with_expenses car) := by
  unfold profit
  rw [isSold_of_some hsold hs, ht, soldVal_of_some hsold]
  simp

theorem profit_cents (car : Car) : Cents (profit car) := by
  have h0 : Cents (0 : ℚ) := by
    rw [cents_iff]
    exact ⟨0, by norm_num⟩
  unfold profit
  split_ifs with h
  · cases hct : car.carType
    · exact round2_cents _
    · exact round2_cents _
  · exact h0

theorem round2_profit (car : Car) : round2 (profit car) = profit car :=
  round2_eq_self (profit_cents car)

theorem profit_of_not_sold {car : Car} (h : isSold car = false) : profit car = 0 := by
  unfold profit
  rw [h]
  simp

theorem unsold_result {car : Car} (h : isSold car = false) :
    (calculate_profit_distribution car).error = some "Car has not been sold yet" ∧
    (calculate_profit_distribution car).admin_share = some 0 ∧
    (calculate_profit_distribution car).total_profit = some 0 ∧
    (calculate_profit_distribution car).remaining_profit = some 0 ∧
    (calculate_profit_distribution car).investor_shares.getD [] = [] ∧
    (calculate_profit_distribution car).show_room_owner_share.getD 0 = 0 ∧
    (calculate_profit_distribution car).car_owner_share.getD 0 = 0 := by
  unfold calculate_profit_distribution
  rw [h]
  cases hct : car.carType <;> simp

/-! ### The claims -/

/-- C1: on the exact scenario of the repository's test (three investments of
300000, one expense of 100000 by investor A, sold for 1100000, admin 30%),
`calculate_profit_distribution` reports total profit 100000, admin share
30000, remaining profit 70000, profit 28000 for investor A (contribution
400000, 40% of the 1000000 cost basis) and 21000 each for investors B and C
(300000, 30% each). -/
theorem C1_exact_scenario :
    (calculate_profit_distribution carA).total_profit = some 100000 ∧
    (calculate_profit_distribution carA).admin_share = some 30000 ∧
    (calculate_profit_distribution carA).remaining_profit = some 70000 ∧
    (calculate_profit_distribution carA).investor_shares = some
      [ ("investor_a@test.com",
          { contribution := 400000, percentage := 40, profit := 28000
            total_return := 428000 })
      , ("investor_b@test.com",
          { contribution := 300000, percentage := 30, profit := 21000
            total_return := 321000 })
      , ("investor_c@test.com",
          { contribution := 300000, percentage := 30, profit := 21000
            total_return := 321000 }) ] := by
  simp +decide only [carA, calculate_profit_distribution, investmentDistribution,
    mkInvestorShare, isSold, soldVal, profit, total_invested_with_expenses, total_invested,
    total_expenses, total_contribution, get_show_room_expenses, List.filter_cons,
    List.filter_nil, List.map_cons, List.map_nil, List.sum_cons, List.sum_nil]
  norm_num [round2, rhe]

/-- C4: when `sold_amount` is NULL the profit is 0 and the distribution is an
error result carrying the explanatory string, with every share field zero. -/
theorem C4_unsold_zero (car : Car) (h : car.soldAmount = none) :
    profit car = 0 ∧
    (calculate_profit_distribution car).error = some "Car has not been sold yet" ∧
    (calculate_profit_distribution car).admin_share = some 0 ∧
    (calculate_profit_distribution car).total_profit = some 0 ∧
    (calculate_profit_distribution car).remaining_profit = some 0 ∧
    (calculate_profit_distribution car).investor_shares.getD [] = [] ∧
    (calculate_profit_distribution car).show_room_owner_share.getD 0 = 0 ∧
    (calculate_profit_distribution car).car_owner_share.getD 0 = 0 := by
  have hs : isSold car = false := by simp [isSold, h]
  exact ⟨profit_of_not_sold hs, unsold_result hs⟩

/-- C4 witness: the never-sold car realizes the hypothesis of
`C4_unsold_zero`. -/
theorem C4_unsold_zero_witness :
    profit carUnsold = 0 ∧
    (calculate_profit_distribution carUnsold).error = some "Car has not been sold yet" ∧
    (calculate_profit_distribution carUnsold).admin_share = some 0 ∧
    (calculate_profit_distribution carUnsold).total_profit = some 0 ∧
    (calculate_profit_distribution carUnsold).remaining_profit = some 0 ∧
    (calculate_profit_distribution carUnsold).investor_shares.getD [] = [] ∧
    (calculate_profit_distribution carUnsold).show_room_owner_share.getD 0 = 0 ∧
    (calculate_profit_distribution carUnsold).car_owner_share.getD 0 = 0 :=
  C4_unsold_zero carUnsold rfl

/-- C9: a car whose `sold_amount` is recorded as 0 (not NULL) is treated as
unsold — Python truthiness of `Decimal('0')` — even when its status says
sold: profit 0 and the not-sold error result with all shares zero. -/
theorem C9_zero_sold_amount (car : Car) (h : car.soldAmount = some 0) :
    profit car = 0 ∧
    (calculate_profit_distribution car).error = some "Car has not been sold yet" ∧
    (calculate_profit_distribution car).admin_share = some 0 ∧
    (calculate_profit_distribution car).total_profit = some 0 ∧
    (calculate_profit_distribution car).remaining_profit = some 0 ∧
    (calculate_profit_distribution car).investor_shares.getD [] = [] ∧
    (calculate_profit_distribution car).show_room_owner_share.getD 0 = 0 ∧
    (calculate_profit_distribution car).car_owner_share.getD 0 = 0 := by
  have hs : isSold car = false := by simp [isSold, h]
  exact ⟨profit_of_not_sold hs, unsold_result hs⟩

/-- C9 witness: a car with status `"sold"` and `sold_amount = 0` realizes the
hypothesis of `C9_zero_sold_amount`. -/
theorem C9_zero_sold_amount_witness :
    carZeroSold.status = "sold" ∧
    profit carZeroSold = 0 ∧
    (calculate_profit_distribution carZeroSold).error = some "Car has not been sold yet" ∧
    (calculate_profit_distribution carZeroSold).admin_share = some 0 :=
  ⟨rfl, (C9_zero_sold_amount carZeroSold rfl).1,
    (C9_zero_sold_amount carZeroSold rfl).2.1,
    (C9_zero_sold_amount carZeroSold rfl).2.2.1⟩

/-- C6: an investment's total contribution is its amount plus the sum of
exactly that investor's expenses on the car, and is unchanged by adding an
expense attributed to a different user. -/
theorem C6_contribution_additivity (car : Car) (inv : CarInvestment) (e : CarExpense)
    (h : e.investor ≠ inv.investor) :
    total_contribution car inv =
      inv.amount + expSumFor inv.investor car.expenses ∧
    total_contribution { car with expenses := e :: car.expenses } inv =
      total_contribution car inv := by
  constructor
  · rfl
  · unfold total_contribution
    simp [List.filter_cons, h]

/-- C6 witness: investor A's contribution on the scenario car, and its
invariance under an outsider's expense. -/
theorem C6_contribution_additivity_witness :
    total_contribution carA { investor := "investor_a@test.com", amount := 300000 } =
      300000 + expSumFor "investor_a@test.com" carA.expenses ∧
    total_contribution
        { carA with expenses :=
            { investor := "x@test.com", amount := 5, description := "other" } :: carA.expenses }
        { investor := "investor_a@test.com", amount := 300000 } =
      total_contribution carA { investor := "investor_a@test.com", amount := 300000 } :=
  C6_contribution_additivity carA
    { investor := "investor_a@test.com", amount := 300000 }
    { investor := "x@test.com", amount := 5, description := "other" }
    (by simp)

/-- C5: a sold investment car whose sale price does not exceed the cost basis
yields zero shares, an empty investor map, and the loss-message error string
carrying the loss magnitude. -/
theorem C5_loss_result (car : Car) (s : ℚ)
    (ht : car.carType = CarType.investment)
    (hsold : car.soldAmount = some s) (hs : s ≠ 0)
    (hle : s ≤ total_invested_with_expenses car) :
    (calculate_profit_distribution car).admin_share = some 0 ∧
    (calculate_profit_distribution car).investor_shares = some [] ∧
    (calculate_profit_distribution car).remaining_profit = some 0 ∧
    (calculate_profit_distribution car).total_profit = some (profit car) ∧
    (calculate_profit_distribution car).error =
      some ("No profit to distribute. Loss: " ++ decimal2Str |profit car|) := by
  have hp : profit car ≤ 0 := by
    rw [profit_investment hsold hs ht]
    exact round2_nonpos (by linarith)
  rw [dist_eq_investment (isSold_of_some hsold hs) ht, round2_profit]
  unfold investmentDistribution
  rw [if_pos hp]
  simp

/-- C5 witness: the loss car (invested 100, sold 50) realizes the hypotheses
of `C5_loss_result`. -/
theorem C5_loss_result_witness :
    (50 : ℚ) ≤ total_invested_with_expenses carLoss ∧
    (calculate_profit_distribution carLoss).admin_share = some 0 ∧
    (calculate_profit_distribution carLoss).investor_shares = some [] ∧
    (calculate_profit_distribution carLoss).error =
      some ("No profit to distribute. Loss: " ++ decimal2Str |profit carLoss|) := by
  have hle : (50 : ℚ) ≤ total_invested_with_expenses carLoss := by
    simp +decide only [carLoss, total_invested_with_expenses, total_invested, total_expenses,
      List.map_cons, List.map_nil, List.sum_cons, List.sum_nil]
    norm_num [round2, rhe]
  have h := C5_loss_result carLoss 50 rfl rfl (by norm_num) hle
  exact ⟨hle, h.1, h.2.1, h.2.2.2.2⟩

/-- C3: for every sold consignment car, show-room total earnings plus the car
owner's earnings reproduce the sold amount, up to the single rounding applied
to the owner's side (well within the ±0.01 tolerance). -/
theorem C3_consignment_conservation (car : Car) (s : ℚ)
    (ht : car.carType = CarType.consignment)
    (hsold : car.soldAmount = some s) (hs : s ≠ 0) :
    |(calculate_profit_distribution car).show_room_total_earnings.getD 0 +
      (calculate_profit_distribution car).car_owner_earnings.getD 0 - s| ≤ 1 / 100 := by
  rw [dist_eq_consignment (isSold_of_some hsold hs) ht]
  unfold consignmentDistribution
  rw [soldVal_of_some hsold]
  simp only [Option.getD_some]
  have key : round2 (car.adminPercentage / 100 * s) + round2 (get_show_room_expenses car) +
      round2 (s - round2 (car.adminPercentage / 100 * s) - round2 (get_show_room_expenses car)) -
      s =
      round2 (s - round2 (car.adminPercentage / 100 * s) - round2 (get_show_room_expenses car)) -
        (s - round2 (car.adminPercentage / 100 * s) - round2 (get_show_room_expenses car)) := by
    ring
  rw [key]
  exact le_trans (abs_round2_sub_le _) (by norm_num)

/-- C3 witness: the consignment scenario car (sold 600000) realizes the
hypotheses of `C3_consignment_conservation`. -/
theorem C3_consignment_conservation_witness :
    |(calculate_profit_distribution carB).show_room_total_earnings.getD 0 +
      (calculate_profit_distribution carB).car_owner_earnings.getD 0 - 600000| ≤ 1 / 100 :=
  C3_consignment_conservation carB 600000 rfl rfl (by norm_num)

/-- C7: the consignment split takes the show-room percentage of the sold
amount (not of the profit) and gives the owner the rounded remainder; on
scenario B (asking 500000, sold 600000, 10%, expenses 20000) this yields
60000 / 80000 / 520000. -/
theorem C7_consignment_formulas :
    (∀ (car : Car) (s : ℚ), car.carType = CarType.consignment →
      car.soldAmount = some s → s ≠ 0 →
      (calculate_profit_distribution car).show_room_percentage_amount =
        some (round2 (car.adminPercentage / 100 * s)) ∧
      (calculate_profit_distribution car).car_owner_earnings =
        some (round2 (s - round2 (car.adminPercentage / 100 * s) -
          round2 (get_show_room_expenses car)))) ∧
    (calculate_profit_distribution carB).show_room_percentage_amount = some 60000 ∧
    (calculate_profit_distribution carB).show_room_total_earnings = some 80000 ∧
    (calculate_profit_distribution carB).car_owner_earnings = some 520000 := by
  constructor
  · intro car s ht hsold hs
    rw [dist_eq_consignment (isSold_of_some hsold hs) ht]
    unfold consignmentDistribution
    rw [soldVal_of_some hsold]
    exact ⟨rfl, rfl⟩
  · refine ⟨?_, ?_, ?_⟩ <;>
    · simp +decide only [carB, calculate_profit_distribution, consignmentDistribution,
        isSold, soldVal, profit, get_show_room_expenses, total_invested_with_expenses,
        total_invested, total_expenses, List.filter_cons, List.filter_nil, List.map_cons,
        List.map_nil, List.sum_cons, List.sum_nil]
      norm_num [round2, rhe]

/-- C7 witness: the universally quantified part of `C7_consignment_formulas`
instantiated at the scenario B car. -/
theorem C7_consignment_formulas_witness :
    (calculate_profit_distribution carB).show_room_percentage_amount =
      some (round2 (carB.adminPercentage / 100 * 600000)) ∧
    (calculate_profit_distribution carB).car_owner_earnings =
      some (round2 (600000 - round2 (carB.adminPercentage / 100 * 600000) -
        round2 (get_show_room_expenses carB))) :=
  C7_consignment_formulas.1 carB 600000 rfl rfl (by norm_num)

/-- C8: the financial operations are total: a zero cost-basis denominator
makes `investment_share`, `profit_amount` and the per-investor percentage and
profit fall back to 0 instead of dividing by zero, and empty collections give
zero aggregates. -/
theorem C8_totality (car car2 : Car) (inv : CarInvestment)
    (hT : total_invested_with_expenses car = 0)
    (h2i : car2.investments = []) (h2e : car2.expenses = []) :
    investment_share car inv = 0 ∧
    profit_amount car inv = 0 ∧
    (∀ p ∈ (calculate_profit_distribution car).investor_shares.getD [],
      p.2.percentage = 0 ∧ p.2.profit = 0) ∧
    total_invested car2 = 0 ∧
    total_expenses car2 = 0 ∧
    total_invested_with_expenses car2 = 0 := by
  refine ⟨?_, ?_, ?_, ?_, ?_, ?_⟩
  · unfold investment_share
    rw [hT]
    norm_num
  · unfold profit_amount
    rw [hT]
    norm_num
  · intro p hp
    by_cases hsold : isSold car
    · cases hct : car.carType
      · rw [dist_eq_investment hsold hct] at hp
        unfold investmentDistribution at hp
        by_cases htp : round2 (profit car) ≤ 0
        · rw [if_pos htp] at hp
          simp at hp
        · rw [if_neg htp] at hp
          simp only [Option.getD_some] at hp
          obtain ⟨inv2, hinv2, rfl⟩ := List.mem_map.mp hp
          unfold mkInvestorShare
          rw [hT]
          norm_num [round2_zero]
      · rw [dist_eq_consignment hsold hct] at hp
        unfold consignmentDistribution at hp
        simp at hp
    · have hs : isSold car = false := by simpa using hsold
      have h := (unsold_result hs).2.2.2.2.1
      rw [h] at hp
      simp at hp
  · unfold total_invested
    rw [h2i]
    simp [round2_zero]
  · unfold total_expenses
    rw [h2e]
    simp [round2_zero]
  · unfold total_invested_with_expenses total_invested total_expenses
    rw [h2i, h2e]
    simp [round2_zero]

/-- C8 witness: the empty sold car has a zero denominator and empty
collections; the fallbacks produce zeros. -/
theorem C8_totality_witness :
    total_invested_with_expenses carNoBasis = 0 ∧
    investment_share carNoBasis invProbe = 0 ∧
    profit_amount carNoBasis invProbe = 0 ∧
    total_invested carNoBasis = 0 ∧
    total_expenses carNoBasis = 0 := by
  have hT : total_invested_with_expenses carNoBasis = 0 := by
    simp +decide only [carNoBasis, total_invested_with_expenses, total_invested,
      total_expenses, List.map_nil, List.sum_nil]
    norm_num [round2, rhe]
  have h := C8_totality carNoBasis carNoBasis invProbe hT rfl rfl
  exact ⟨hT, h.1, h.2.1, h.2.2.2.1, h.2.2.2.2.1⟩

/-! ### Conservation for investment cars -/

theorem total_invested_eq (car : Car)
    (hci : ∀ i ∈ car.investments, Cents i.amount) :
    total_invested car = ((car.investments.map fun i => i.amount).sum) := by
  apply round2_eq_self
  apply cents_sum
  intro x hx
  obtain ⟨i, hi, rfl⟩ := List.mem_map.mp hx
  exact hci i hi

theorem total_expenses_eq (car : Car)
    (hce : ∀ e ∈ car.expenses, Cents e.amount) :
    total_expenses car = ((car.expenses.map fun e => e.amount).sum) := by
  apply round2_eq_self
  apply cents_sum
  intro x hx
  obtain ⟨e, he, rfl⟩ := List.mem_map.mp hx
  exact hce e he

theorem tcb_eq (car : Car)
    (hci : ∀ i ∈ car.investments, Cents i.amount)
    (hce : ∀ e ∈ car.expenses, Cents e.amount) :
    total_invested_with_expenses car =
      ((car.investments.map fun i => i.amount).sum) +
        ((car.expenses.map fun e => e.amount).sum) := by
  have h1 : Cents ((car.investments.map fun i => i.amount).sum) := by
    apply cents_sum
    intro x hx
    obtain ⟨i, hi, rfl⟩ := List.mem_map.mp hx
    exact hci i hi
  have h2 : Cents ((car.expenses.map fun e => e.amount).sum) := by
    apply cents_sum
    intro x hx
    obtain ⟨e, he, rfl⟩ := List.mem_map.mp hx
    exact hce e he
  unfold total_invested_with_expenses
  rw [total_invested_eq car hci, total_expenses_eq car hce]
  exact round2_eq_self (cents_add h1 h2)

theorem investmentDistribution_admin {car : Car} {tp : ℚ} (htp : ¬ tp ≤ 0) :
    (investmentDistribution car tp).admin_share =
      some (round2 (car.adminPercentage / 100 * tp)) := by
  unfold investmentDistribution
  rw [if_neg htp]

theorem investmentDistribution_total {car : Car} {tp : ℚ} (htp : ¬ tp ≤ 0) :
    (investmentDistribution car tp).total_profit = some tp := by
  unfold investmentDistribution
  rw [if_neg htp]

theorem investmentDistribution_shares {car : Car} {tp : ℚ} (htp : ¬ tp ≤ 0) :
    (investmentDistribution car tp).investor_shares =
      some (car.investments.map
        (mkInvestorShare car (round2 (tp - round2 (car.adminPercentage / 100 * tp)))
          (total_invested_with_expenses car))) := by
  unfold investmentDistribution
  rw [if_neg htp]

theorem cents_of_mul_eq {x : ℚ} (k : ℤ) (h : 100 * x = (k : ℚ)) : Cents x := by
  rw [cents_iff]
  refine ⟨k, ?_⟩
  rw [← h]
  ring

theorem mkInvestorShare_profit {car : Car} {r t : ℚ} (ht : t > 0) (inv : CarInvestment) :
    (mkInvestorShare car r t inv).2.profit =
      round2 (r * (total_contribution car inv / t)) := by
  unfold mkInvestorShare
  simp [ht]

/-- C2 counterexample: on a sold investment car whose single expense is
attributed to a user holding no investment (investor a invests 100, outsider
b spends 100, sold for 400, admin 0%), the admin share plus investor profits
is 100 while the reported total profit is 200 — conservation fails far beyond
the ±0.01 per-investor tolerance. -/
theorem C2_counterexample :
    (calculate_profit_distribution carOutsider).admin_share = some 0 ∧
    (calculate_profit_distribution carOutsider).total_profit = some 200 ∧
    (((calculate_profit_distribution carOutsider).investor_shares.getD []).map
      (fun p => p.2.profit)).sum = 100 ∧
    ¬ (|(0 : ℚ) + 100 - 200| ≤ (carOutsider.investments.length : ℚ) / 100) := by
  refine ⟨?_, ?_, ?_, ?_⟩
  · simp +decide only [carOutsider, calculate_profit_distribution, investmentDistribution,
      mkInvestorShare, isSold, soldVal, profit, total_invested_with_expenses, total_invested,
      total_expenses, total_contribution, get_show_room_expenses, List.filter_cons,
      List.filter_nil, List.map_cons, List.map_nil, List.sum_cons, List.sum_nil]
    norm_num [round2, rhe]
  · simp +decide only [carOutsider, calculate_profit_distribution, investmentDistribution,
      mkInvestorShare, isSold, soldVal, profit, total_invested_with_expenses, total_invested,
      total_expenses, total_contribution, get_show_room_expenses, List.filter_cons,
      List.filter_nil, List.map_cons, List.map_nil, List.sum_cons, List.sum_nil]
    norm_num [round2, rhe]
  · simp +decide only [carOutsider, calculate_profit_distribution, investmentDistribution,
      mkInvestorShare, isSold, soldVal, profit, total_invested_with_expenses, total_invested,
      total_expenses, total_contribution, get_show_room_expenses, List.filter_cons,
      List.filter_nil, List.map_cons, List.map_nil, List.sum_cons, List.sum_nil]
    norm_num [round2, rhe]
  · intro hc
    have h1 : ((0 : ℚ) + 100 - 200) = -100 := by norm_num
    rw [h1, abs_neg, abs_of_nonneg (by norm_num : (0:ℚ) ≤ 100)] at hc
    have h2 : (carOutsider.investments.length : ℚ) = 1 := by
      simp [carOutsider]
    rw [h2] at hc
    norm_num at hc

/-- C2 amended: conservation holds once every expense on the car is
attributed to a user who holds an investment on it (investors are pairwise
distinct, as the unique constraint guarantees), all stored amounts are whole
cents (as the two-decimal columns guarantee), and the cost basis is positive:
admin share plus the investor profits equals the reported total profit to
within 0.01 per investor. -/
theorem C2_conservation_amended (car : Car) (s : ℚ)
    (ht : car.carType = CarType.investment)
    (hsold : car.soldAmount = some s) (hs : s ≠ 0)
    (hp : 0 < profit car)
    (hd : car.investments.Pairwise fun i j => i.investor ≠ j.investor)
    (hcov : ∀ e ∈ car.expenses, ∃ inv ∈ car.investments, inv.investor = e.investor)
    (hci : ∀ i ∈ car.investments, Cents i.amount)
    (hce : ∀ e ∈ car.expenses, Cents e.amount)
    (hT : 0 < total_invested_with_expenses car) :
    |(calculate_profit_distribution car).admin_share.getD 0 +
      (((calculate_profit_distribution car).investor_shares.getD []).map
        (fun p => p.2.profit)).sum -
      (calculate_profit_distribution car).total_profit.getD 0| ≤
      (car.investments.length : ℚ) / 100 := by
  have htp : ¬ profit car ≤ 0 := not_le.mpr hp
  rw [dist_eq_investment (isSold_of_some hsold hs) ht, round2_profit]
  rw [investmentDistribution_admin htp, investmentDistribution_total htp,
    investmentDistribution_shares htp]
  simp only [Option.getD_some]
  set P := profit car with hPdef
  set T := total_invested_with_expenses car with hTdef
  set A := round2 (car.adminPercentage / 100 * P) with hAdef
  set R := round2 (P - A) with hRdef
  have hmap : (car.investments.map (mkInvestorShare car R T)).map (fun p => p.2.profit) =
      (car.investments.map fun inv => R * (total_contribution car inv / T)).map round2 := by
    rw [List.map_map, List.map_map]
    apply List.map_congr_left
    intro inv _
    exact mkInvestorShare_profit hT inv
  rw [hmap]
  have hTsum : ((car.investments.map fun inv => total_contribution car inv).sum) = T := by
    rw [sum_total_contribution car hd hcov, hTdef, tcb_eq car hci hce]
  have hsum : ((car.investments.map fun inv => R * (total_contribution car inv / T)).sum)
      = R := by
    rw [List.sum_map_mul_left]
    have hdiv : (car.investments.map fun inv => total_contribution car inv / T) =
        car.investments.map fun inv => total_contribution car inv * T⁻¹ := by
      apply List.map_congr_left
      intro inv _
      rw [div_eq_mul_inv]
    rw [hdiv, List.sum_map_mul_right, hTsum, mul_inv_cancel₀ (ne_of_gt hT), mul_one]
  have herr := abs_sum_map_round2_sub_le
    (car.investments.map fun inv => R * (total_contribution car inv / T))
  rw [hsum, List.length_map] at herr
  have hRA : R = P - A := by
    rw [hRdef]
    exact round2_eq_self (cents_sub (profit_cents car) (round2_cents _))
  have hn : (0:ℚ) ≤ (car.investments.length : ℚ) := by positivity
  have key : A + ((car.investments.map fun inv =>
        R * (total_contribution car inv / T)).map round2).sum - P =
      ((car.investments.map fun inv =>
        R * (total_contribution car inv / T)).map round2).sum - R := by
    rw [hRA]
    ring
  rw [key]
  calc |((car.investments.map fun inv =>
        R * (total_contribution car inv / T)).map round2).sum - R|
      ≤ (car.investments.length : ℚ) / 200 := herr
    _ ≤ (car.investments.length : ℚ) / 100 := by linarith

/-- C2 amended witness: the exact-scenario car satisfies all the hypotheses
and conserves profit exactly. -/
theorem C2_conservation_amended_witness :
    |(calculate_profit_distribution carA).admin_share.getD 0 +
      (((calculate_profit_distribution carA).investor_shares.getD []).map
        (fun p => p.2.profit)).sum -
      (calculate_profit_distribution carA).total_profit.getD 0| ≤
      (carA.investments.length : ℚ) / 100 := by
  have hp : 0 < profit carA := by
    simp +decide only [carA, profit, isSold, soldVal, total_invested_with_expenses,
      total_invested, total_expenses, List.map_cons, List.map_nil, List.sum_cons,
      List.sum_nil]
    norm_num [round2, rhe]
  have hT : 0 < total_invested_with_expenses carA := by
    simp +decide only [carA, total_invested_with_expenses, total_invested, total_expenses,
      List.map_cons, List.map_nil, List.sum_cons, List.sum_nil]
    norm_num [round2, rhe]
  exact C2_conservation_amended carA 1100000 rfl rfl (by norm_num) hp
    (by simp [carA]) (by simp [carA])
    (by intro i hi; fin_cases hi <;> exact cents_of_mul_eq 30000000 (by norm_num))
    (by intro e he; fin_cases he; exact cents_of_mul_eq 10000000 (by norm_num))
    hT

/-! ### Agreement of the two per-investor profit computations -/

/-- C10 counterexample: sole investor of 100, sold at 101.01, admin 50%.  The
distribution rounds the admin share (0.505 → 0.50) before subtracting, so its
investor profit is 0.51; `profit_amount` subtracts the unrounded 0.505 and
rounds at the end, giving 0.50. -/
theorem C10_counterexample :
    ((calculate_profit_distribution carHalfCent).investor_shares.getD []).map
      (fun p => p.2.profit) = [51 / 100] ∧
    profit_amount carHalfCent invHalfCent = 1 / 2 ∧
    (51 / 100 : ℚ) ≠ 1 / 2 := by
  refine ⟨?_, ?_, by norm_num⟩
  · simp +decide only [carHalfCent, calculate_profit_distribution, investmentDistribution,
      mkInvestorShare, isSold, soldVal, profit, total_invested_with_expenses, total_invested,
      total_expenses, total_contribution, get_show_room_expenses, List.filter_cons,
      List.filter_nil, List.map_cons, List.map_nil, List.sum_cons, List.sum_nil]
    norm_num [round2, rhe]
  · simp +decide only [carHalfCent, invHalfCent, profit_amount, isSold, soldVal, profit,
      total_invested_with_expenses, total_invested, total_expenses, total_contribution,
      get_show_room_expenses, List.filter_cons, List.filter_nil, List.map_cons,
      List.map_nil, List.sum_cons, List.sum_nil]
    norm_num [round2, rhe]

/-- C10 amended: on a sold investment car with positive profit, positive cost
basis and nonnegative whole-cent amounts, each investment's `profit_amount`
agrees with the `profit` entry recorded for that investor by
`calculate_profit_distribution` to within 0.01 (one cent) — not exactly, as
the counterexample shows. -/
theorem C10_share_agreement (car : Car) (s : ℚ) (inv : CarInvestment)
    (ht : car.carType = CarType.investment)
    (hsold : car.soldAmount = some s) (hs : s ≠ 0)
    (hp : 0 < profit car)
    (hT : 0 < total_invested_with_expenses car)
    (hmem : inv ∈ car.investments)
    (hamt : ∀ i ∈ car.investments, Cents i.amount ∧ 0 ≤ i.amount)
    (hexp : ∀ e ∈ car.expenses, Cents e.amount ∧ 0 ≤ e.amount) :
    ∃ sh : InvestorShare,
      (inv.investor, sh) ∈ (calculate_profit_distribution car).investor_shares.getD [] ∧
      |sh.profit - profit_amount car inv| ≤ 1 / 100 := by
  have htp : ¬ profit car ≤ 0 := not_le.mpr hp
  set P := profit car with hPdef
  set T := total_invested_with_expenses car with hTdef
  set a' := car.adminPercentage / 100 * P with hadef
  set A := round2 a' with hAdef
  set R := round2 (P - A) with hRdef
  set r := total_contribution car inv / T with hrdef
  -- the distribution's entry for this investment
  refine ⟨(mkInvestorShare car R T inv).2, ?_, ?_⟩
  · rw [dist_eq_investment (isSold_of_some hsold hs) ht, round2_profit,
      investmentDistribution_shares htp]
    simp only [Option.getD_some]
    have hpair : (inv.investor, (mkInvestorShare car R T inv).2) =
        mkInvestorShare car R T inv := rfl
    rw [hpair]
    exact List.mem_map_of_mem _ hmem
  · -- both sides as round2 of nearby quantities
    have hsh : (mkInvestorShare car R T inv).2.profit = round2 (R * r) :=
      mkInvestorShare_profit hT inv
    have hpa : profit_amount car inv = round2 ((P - a') * r) := by
      unfold profit_amount
      rw [if_neg (by
        rw [isSold_of_some hsold hs]
        simp only [not_or]
        exact ⟨by simp, htp⟩), if_pos hT]
    rw [hsh, hpa]
    -- r lies in [0, 1]
    have hcontrib : total_contribution car inv =
        inv.amount + expSumFor inv.investor car.expenses := rfl
    have hc0 : 0 ≤ total_contribution car inv := by
      rw [hcontrib]
      exact add_nonneg (hamt inv hmem).2
        (expSumFor_nonneg _ _ fun e he => (hexp e he).2)
    have hcle : total_contribution car inv ≤ T := by
      rw [hTdef, tcb_eq car (fun i hi => (hamt i hi).1) (fun e he => (hexp e he).1), hcontrib]
      have h1 : inv.amount ≤ ((car.investments.map fun i => i.amount).sum) := by
        apply List.single_le_sum
        · intro x hx
          obtain ⟨i, hi, rfl⟩ := List.mem_map.mp hx
          exact (hamt i hi).2
        · exact List.mem_map_of_mem _ hmem
      have h2 : expSumFor inv.investor car.expenses ≤
          ((car.expenses.map fun e => e.amount).sum) :=
        expSumFor_le_sum _ _ fun e he => (hexp e he).2
      linarith
    have hr0 : 0 ≤ r := div_nonneg hc0 (le_of_lt hT)
    have hr1 : r ≤ 1 := by
      rw [hrdef]
      exact (div_le_one hT).mpr hcle
    -- the two arguments of round2 differ by at most half a cent
    have hmid : |R * r - (P - a') * r| ≤ 1 / 200 := by
      have hRA : R = P - A := by
        rw [hRdef]
        exact round2_eq_self (cents_sub (profit_cents car) (round2_cents _))
      have hAd : |A - a'| ≤ 1 / 200 := abs_round2_sub_le a'
      have hfac : R * r - (P - a') * r = (a' - A) * r := by
        rw [hRA]
        ring
      rw [hfac, abs_mul, abs_of_nonneg hr0, abs_sub_comm]
      calc |A - a'| * r ≤ (1 / 200) * 1 := by
            apply mul_le_mul hAd hr1 hr0 (by norm_num)
        _ = 1 / 200 := by norm_num
    -- total bound, then sharpen to one cent using whole-cent values
    have e1 := abs_round2_sub_le (R * r)
    have e2 := abs_round2_sub_le ((P - a') * r)
    have hbig : |round2 (R * r) - round2 ((P - a') * r)| ≤ 3 / 200 := by
      have hdecomp : round2 (R * r) - round2 ((P - a') * r) =
          (round2 (R * r) - R * r) + (R * r - (P - a') * r) +
            ((P - a') * r - round2 ((P - a') * r)) := by ring
      rw [hdecomp]
      calc |(round2 (R * r) - R * r) + (R * r - (P - a') * r) +
            ((P - a') * r - round2 ((P - a') * r))|
          ≤ |(round2 (R * r) - R * r) + (R * r - (P - a') * r)| +
            |(P - a') * r - round2 ((P - a') * r)| := abs_add _ _
        _ ≤ |round2 (R * r) - R * r| + |R * r - (P - a') * r| +
            |(P - a') * r - round2 ((P - a') * r)| := by
              have := abs_add (round2 (R * r) - R * r) (R * r - (P - a') * r)
              linarith [abs_sub_comm ((P - a') * r) (round2 ((P - a') * r))]
        _ ≤ 1 / 200 + 1 / 200 + 1 / 200 := by
              have e2b : |(P - a') * r - round2 ((P - a') * r)| ≤ 1 / 200 := by
                rw [abs_sub_comm]
                exact e2
              linarith
        _ = 3 / 200 := by norm_num
    exact cents_abs_diff_le (round2_cents _) (round2_cents _) hbig

/-- C10 amended witness: on the exact-scenario car both computations give
investor A exactly 28000. -/
theorem C10_share_agreement_witness :
    ∃ sh : InvestorShare,
      ("investor_a@test.com", sh) ∈
        (calculate_profit_distribution carA).investor_shares.getD [] ∧
      |sh.profit - profit_amount carA
        { investor := "investor_a@test.com", amount := 300000 }| ≤ 1 / 100 := by
  have hp : 0 < profit carA := by
    simp +decide only [carA, profit, isSold, soldVal, total_invested_with_expenses,
      total_invested, total_expenses, List.map_cons, List.map_nil, List.sum_cons,
      List.sum_nil]
    norm_num [round2, rhe]
  have hT : 0 < total_invested_with_expenses carA := by
    simp +decide only [carA, total_invested_with_expenses, total_invested, total_expenses,
      List.map_cons, List.map_nil, List.sum_cons, List.sum_nil]
    norm_num [round2, rhe]
  have hamt : ∀ i ∈ carA.investments, Cents i.amount ∧ 0 ≤ i.amount := by
    intro i hi
    fin_cases hi <;> exact ⟨cents_of_mul_eq 30000000 (by norm_num), by norm_num⟩
  have hexp : ∀ e ∈ carA.expenses, Cents e.amount ∧ 0 ≤ e.amount := by
    intro e he
    fin_cases he
    exact ⟨cents_of_mul_eq 10000000 (by norm_num), by norm_num⟩
  exact C10_share_agreement carA 1100000
    { investor := "investor_a@test.com", amount := 300000 }
    rfl rfl (by norm_num) hp hT (by simp [carA]) hamt hexp

end ShowRoom
